import Mathlib

/-!
Shallow embedding of the snippet functions in
`src/Stoic/examples/before.cpp` and `src/Stoic/examples/after.cpp`,
together with theorems settling the specification claims about them.

The two files are flat sequences of independent snippets.  The stateful
part (snippet 10) manipulates a global `std::map<std::string, int>
counters`; we embed that map as a function `String → Option Int`
(pointwise view of the map's contents) and the snippet functions as
explicit state transformers.  All other snippets are pure and are
embedded as plain functions; C++ `int` is idealised as `Int` (overflow
is not at issue in any claim), `size_t` as `Nat`, and `unsigned char`
(`StepCount`) as `Fin 256`.
-/

/-- The contents of a `std::map<std::string, int>`, viewed pointwise:
`m k = some v` when the key `k` is present with value `v`, `none` when
it is absent. -/
def Counters : Type := String → Option Int

/-- Store value `v` under key `k` (insert-or-assign). -/
def Counters.update (m : Counters) (k : String) (v : Int) : Counters :=
  fun k2 => if k2 = k then some v else m k2

/-- `std::map::operator[]` as in `counters[name]`: if the key is absent
it is inserted with value `0` (value-initialised `int`); the call yields
the (possibly freshly inserted) stored value together with the updated
map. -/
def Counters.bracket (m : Counters) (k : String) : Counters × Int :=
  match m k with
  | some v => (m, v)
  | none => (Counters.update m k 0, 0)

/-- `incrementCounter` from before.cpp: `counters[name]++` — the
`operator[]` access (inserting `0` when absent), then an increment of
the referenced entry. -/
def incrementCounter (m : Counters) (name : String) : Counters :=
  let p := Counters.bracket m name
  Counters.update p.1 name (p.2 + 1)

/-- `getCounter` from before.cpp: `return counters[name];` — the
`operator[]` access inserts `0` when the key is absent, and its value
is returned.  The first component is the map after the call. -/
def getCounter (m : Counters) (name : String) : Counters × Int :=
  Counters.bracket m name

/-- `incrementCounterSafe` from after.cpp: `find`, then either
increment the existing entry or insert the value `1`. -/
def incrementCounterSafe (m : Counters) (name : String) : Counters :=
  match m name with
  | some v => Counters.update m name (v + 1)
  | none => Counters.update m name 1

/-- `getCounterSafe` from after.cpp: `find`, return the stored value
when present and `0` otherwise; the map is not modified.  The first
component is the map after the call. -/
def getCounterSafe (m : Counters) (name : String) : Counters × Int :=
  match m name with
  | some v => (m, v)
  | none => (m, 0)

/-- `setCounter` from after.cpp: `counters[name] = value;`
(insert-or-assign, documented as an intentional insertion). -/
def setCounter (m : Counters) (name : String) (v : Int) : Counters :=
  Counters.update m name v

/-- `SafeContainer<T>` from after.cpp (FIX 9), instantiated at
`T = int`: a `std::vector<T> data`. -/
structure SafeContainer where
  data : List Int

/-- `SafeContainer::average` from after.cpp: `nullopt` on an empty
container, otherwise the running sum (`T sum = T{}; sum += item`)
divided by the element count.  C++ `int` division truncates toward
zero, which is `Int.tdiv`. -/
def SafeContainer.average (c : SafeContainer) : Option Int :=
  if c.data.isEmpty then none
  else
    let sum := c.data.foldl (fun acc item => acc + item) 0
    some (Int.tdiv sum (c.data.length : Int))

/-- `SafeContainer::get` from after.cpp: `nullopt` when
`index >= data.size()`, otherwise the element `data[index]` (the
in-range vector access, embedded as the total `List` lookup). -/
def SafeContainer.get (c : SafeContainer) (index : Nat) : Option Int :=
  if c.data.length ≤ index then none
  else c.data[index]?

/-- `SafeContainer::size`. -/
def SafeContainer.size (c : SafeContainer) : Nat :=
  c.data.length

/-- The empty class `Item` from the sources. -/
inductive Item where
  | mk
deriving DecidableEq

/-- `Container` from after.cpp (FIX 5): a
`std::vector<std::unique_ptr<Item>> items`. -/
structure Container where
  items : List Item

/-- Unchecked `std::vector::operator[]` with a C++ `int` index, as a
total function: `some` of the element exactly when the index is in
range, `none` on the out-of-range (undefined-behaviour) branch. -/
def vecIndex {α : Type} (l : List α) (i : Int) : Option α :=
  if 0 ≤ i then l[i.toNat]? else none

/-- `Container::get` from after.cpp: `items[index].get()` — an
unchecked vector access at an `int` index. -/
def Container.get (c : Container) (index : Int) : Option Item :=
  vecIndex c.items index

/-- `GameState` from both files: a score and a move list. -/
structure GameState where
  score : Int
  moves : List Int
deriving DecidableEq

/-- `GameState::applyMove`: `moves.push_back(m); score += m;`. -/
def GameState.applyMove (s : GameState) (m : Int) : GameState :=
  { score := s.score + m, moves := s.moves ++ [m] }

/-- `tryMoveSafe` from after.cpp: the parameter is passed by value, so
the function mutates a copy; we return the caller's state after the
call (unchanged, by value semantics) together with the `bool` result. -/
def tryMoveSafe (s : GameState) (move : Int) : GameState × Bool :=
  let state := GameState.applyMove s move
  if state.score < 0 then (s, false) else (s, true)

/-- `StepCount` from after.cpp: `unsigned char`, values 0–255. -/
abbrev StepCount : Type := Fin 256

/-- The loop of `planRouteSafe`:
`for (StepCount i = 0; i < maxSteps; ++i)` with the loop variable an
`unsigned char` (increment wraps modulo 256).  Returns the number of
iterations executed from loop counter `i`. -/
def planRouteLoop (maxSteps : StepCount) (i : Nat) : Nat :=
  if h : i < maxSteps.val then 1 + planRouteLoop maxSteps ((i + 1) % 256)
  else 0
termination_by maxSteps.val - i
decreasing_by
  have h2 : i + 1 < 256 :=
    Nat.lt_of_lt_of_le (Nat.succ_lt_succ h) maxSteps.isLt
  simp [Nat.mod_eq_of_lt h2]
  omega

/-- `planRouteSafe` from after.cpp, observed by its iteration count:
the loop starts at `i = 0`. -/
def planRouteSafe (maxSteps : StepCount) : Nat :=
  planRouteLoop maxSteps 0

/-- `factorial` from after.cpp (FIX 8):
`n <= 1 ? 1 : n * factorial(n - 1)` on C++ `int`, idealised as `Int`. -/
def factorial (n : Int) : Int :=
  if n ≤ 1 then 1 else n * factorial (n - 1)
termination_by n.toNat
decreasing_by
  simp at *
  omega

/-- `max_of` from after.cpp (FIX 2): `(a > b) ? a : b` for any ordered
type. -/
def max_of {α : Type} [LinearOrder α] (a b : α) : α :=
  if a > b then a else b

/-- `square` from after.cpp (FIX 2): `x * x`. -/
def square {α : Type} [Mul α] (x : α) : α :=
  x * x

/-- The callable operations of the snippet files, with their arguments.
Used to state the absence of shared state across snippet categories. -/
inductive StoicOp where
  | opIncrementCounter (name : String)
  | opGetCounter (name : String)
  | opIncrementCounterSafe (name : String)
  | opGetCounterSafe (name : String)
  | opSetCounter (name : String) (v : Int)
  | opAverage (data : List Int)
  | opGetElem (data : List Int) (i : Nat)
  | opTryMove (s : GameState) (m : Int)
  | opPlanRoute (m : StepCount)
  | opMaxOf (a b : Int)
  | opSquare (x : Int)
  | opFactorial (n : Int)
deriving DecidableEq

/-- The snippet category (mistake/fix number in the sources) each
operation belongs to. -/
def StoicOp.categoryOf : StoicOp → Nat
  | .opIncrementCounter _ => 10
  | .opGetCounter _ => 10
  | .opIncrementCounterSafe _ => 10
  | .opGetCounterSafe _ => 10
  | .opSetCounter _ _ => 10
  | .opAverage _ => 9
  | .opGetElem _ _ => 9
  | .opTryMove _ _ => 11
  | .opPlanRoute _ => 12
  | .opMaxOf _ _ => 2
  | .opSquare _ => 2
  | .opFactorial _ => 8

/-- What an operation returns, as a single observation type. -/
inductive Obs where
  | unit
  | int (v : Int)
  | optInt (v : Option Int)
  | bool (b : Bool)
  | nat (n : Nat)
deriving DecidableEq

/-- The program state shared between snippets is exactly the one
mutable global of the two files, the `counters` map.  `runOp` executes
one operation on it, giving the state after the call and the
observation.  Each branch is the embedding of the corresponding source
function; the non-snippet-10 functions never name `counters` in the
sources, hence leave the state untouched. -/
def runOp (o : StoicOp) (σ : Counters) : Counters × Obs :=
  match o with
  | .opIncrementCounter name => (incrementCounter σ name, Obs.unit)
  | .opGetCounter name => ((getCounter σ name).1, Obs.int (getCounter σ name).2)
  | .opIncrementCounterSafe name => (incrementCounterSafe σ name, Obs.unit)
  | .opGetCounterSafe name =>
      ((getCounterSafe σ name).1, Obs.int (getCounterSafe σ name).2)
  | .opSetCounter name v => (setCounter σ name v, Obs.unit)
  | .opAverage data => (σ, Obs.optInt (SafeContainer.average ⟨data⟩))
  | .opGetElem data i => (σ, Obs.optInt (SafeContainer.get ⟨data⟩ i))
  | .opTryMove s m => (σ, Obs.bool (tryMoveSafe s m).2)
  | .opPlanRoute m => (σ, Obs.nat (planRouteSafe m))
  | .opMaxOf a b => (σ, Obs.int (max_of a b))
  | .opSquare x => (σ, Obs.int (square x))
  | .opFactorial n => (σ, Obs.int (factorial n))

/-! ## Theorems settling the claims -/

/-- C1: for every counters map state and every name, `incrementCounter`
from before.cpp and `incrementCounterSafe` from after.cpp produce
identical final maps: a missing key ends mapped to 1, a present key's
value is incremented by 1. -/
theorem c1_increment_equiv (m : Counters) (name : String) :
    incrementCounter m name = incrementCounterSafe m name := by
  funext k
  simp only [incrementCounter, incrementCounterSafe, Counters.bracket]
  cases h : m name <;> by_cases hk : k = name <;>
    simp [h, hk, Counters.update]

/-- C2: `getCounterSafe` returns the stored value when the key is
present and 0 otherwise, without changing the map, while before.cpp's
`getCounter` leaves the key mapped to `some` of that same default —
in particular it inserts a 0 entry for a missing key. -/
theorem c2_getCounterSafe_pure (m : Counters) (name : String) :
    (getCounterSafe m name).1 = m ∧
    (getCounterSafe m name).2 = (m name).getD 0 ∧
    (getCounter m name).1 name = some ((m name).getD 0) := by
  simp only [getCounterSafe, getCounter, Counters.bracket]
  cases h : m name <;> simp [h, Counters.update]

/-- C3: `SafeContainer.average` returns `none` exactly on the empty
container, and otherwise the sum of the elements divided (C++ `int`
division, `Int.tdiv`) by the element count, whose positivity makes the
division-by-zero case unreachable. -/
theorem c3_average_characterisation (c : SafeContainer) :
    (SafeContainer.average c = none ↔ c.data = []) ∧
    (c.data = [] ∨
      (0 < c.data.length ∧
        SafeContainer.average c =
          some (Int.tdiv c.data.sum (c.data.length : Int)))) := by
  rcases c with ⟨data⟩
  cases data with
  | nil => simp [SafeContainer.average]
  | cons a t =>
    have hs : (a :: t).foldl (fun acc item => acc + item) 0 = (a :: t).sum :=
      List.sum_eq_foldl.symm
    refine ⟨by simp [SafeContainer.average], Or.inr ⟨by simp, ?_⟩⟩
    simp [SafeContainer.average, hs]

/-- C4: the bounds-checked accessor `SafeContainer.get` returns `none`
exactly when the index is at least the size, and otherwise agrees with
the total list lookup (hence accesses only in-range positions). -/
theorem c4_get_bounds (c : SafeContainer) (i : Nat) :
    (SafeContainer.get c i = none ↔ c.data.length ≤ i) ∧
    SafeContainer.get c i = c.data[i]? := by
  simp only [SafeContainer.get]
  by_cases h : c.data.length ≤ i
  · simp [h, (List.getElem?_eq_none h).symm]
  · simp [h, List.getElem?_eq_getElem (Nat.lt_of_not_le h)]

/-- C5: `tryMoveSafe` operates on an intentional copy — the caller's
state (score and moves alike) is unchanged after the call — and
returns `false` exactly when `s.score + m < 0`. -/
theorem c5_tryMoveSafe_copy (s : GameState) (m : Int) :
    (tryMoveSafe s m).1 = s ∧
    ((tryMoveSafe s m).2 = false ↔ s.score + m < 0) := by
  simp only [tryMoveSafe, GameState.applyMove]
  by_cases h : s.score + m < 0 <;> simp [h]

/-- The loop of `planRouteSafe` executes `maxSteps - i` iterations from
loop counter `i`: the counter stays below 256 so its increment never
wraps. -/
theorem planRouteLoop_eq (m : StepCount) :
    ∀ k i, m.val - i ≤ k → planRouteLoop m i = m.val - i := by
  intro k
  induction k with
  | zero =>
    intro i h
    have hle : ¬ i < m.val := by omega
    rw [planRouteLoop]
    simp [hle]
    omega
  | succ k ih =>
    intro i h
    rw [planRouteLoop]
    by_cases hi : i < m.val
    · have h2 : i + 1 < 256 := Nat.lt_of_lt_of_le (Nat.succ_lt_succ hi) m.isLt
      rw [dif_pos hi, Nat.mod_eq_of_lt h2, ih (i + 1) (by omega)]
      omega
    · rw [dif_neg hi]
      omega

/-- C6: `StepCount` represents exactly the values 0 to 255, and for
every `maxSteps` in that range `planRouteSafe` terminates with its loop
executing exactly `maxSteps` iterations. -/
theorem c6_planRouteSafe_iterations :
    Fintype.card StepCount = 256 ∧
    (∀ s : StepCount, s.val ≤ 255) ∧
    (∀ m : StepCount, planRouteSafe m = m.val) := by
  refine ⟨Fintype.card_fin 256, fun s => by omega, fun m => ?_⟩
  have h := planRouteLoop_eq m m.val 0 (by omega)
  simpa [planRouteSafe] using h

/-- An operation outside snippet category 10 leaves the shared state
(the `counters` map) untouched. -/
theorem runOp_pure_state (o : StoicOp) (σ : Counters)
    (h : o.categoryOf ≠ 10) : (runOp o σ).1 = σ := by
  cases o <;> first | rfl | exact absurd rfl h

/-- An operation outside snippet category 10 produces an observation
that does not depend on the shared state. -/
theorem runOp_obs_const (o : StoicOp) (σ σ2 : Counters)
    (h : o.categoryOf ≠ 10) : (runOp o σ).2 = (runOp o σ2).2 := by
  cases o <;> first | rfl | exact absurd rfl h

/-- C7: no state is shared across snippet categories — executing an
operation of one category never changes the result of a subsequent
operation of a different category, since the only mutable global, the
counters map, is read and written only by the snippet-10 functions. -/
theorem c7_no_shared_state (o1 o2 : StoicOp) (σ : Counters)
    (h : o1.categoryOf ≠ o2.categoryOf) :
    (runOp o2 (runOp o1 σ).1).2 = (runOp o2 σ).2 := by
  by_cases h2 : o2.categoryOf = 10
  · have h1 : o1.categoryOf ≠ 10 := fun heq => h (heq.trans h2.symm)
    rw [runOp_pure_state o1 σ h1]
  · exact runOp_obs_const o2 _ σ h2

/-- Witness for C7 at concrete operations and the empty map. -/
theorem c7_no_shared_state_witness :
    (runOp (StoicOp.opTryMove ⟨0, []⟩ 1)
        (runOp (StoicOp.opIncrementCounterSafe "a") (fun _ => none)).1).2 =
      (runOp (StoicOp.opTryMove ⟨0, []⟩ 1) (fun _ => none)).2 :=
  c7_no_shared_state (StoicOp.opIncrementCounterSafe "a")
    (StoicOp.opTryMove ⟨0, []⟩ 1) (fun _ => none) (by decide)

/-- C8: the generic replacements of the function-like macros compute
the intended operations — `max_of a b` is `a` when `a > b` and `b`
otherwise (the maximum of the two), and `square x` is `x * x`. -/
theorem c8_max_of_square {α : Type} [LinearOrder α] [Mul α] (a b x : α) :
    (a > b → max_of a b = a) ∧ (¬ a > b → max_of a b = b) ∧
    max_of a b = max a b ∧ square x = x * x := by
  refine ⟨fun h => by simp [max_of, h], fun h => by simp [max_of, h], ?_, rfl⟩
  by_cases h : b < a
  · simp [max_of, h, max_eq_left (le_of_lt h)]
  · simp [max_of, h, max_eq_right (not_lt.mp h)]

/-- Witness for C8 at concrete integers. -/
theorem c8_max_of_square_witness :
    max_of (5 : Int) 3 = 5 ∧ max_of (2 : Int) 3 = 3 ∧
    max_of (5 : Int) 3 = max 5 3 ∧ square (7 : Int) = 49 :=
  ⟨(c8_max_of_square 5 3 7).1 (by decide),
   (c8_max_of_square 2 3 7).2.1 (by decide),
   (c8_max_of_square 5 3 7).2.2.1,
   (c8_max_of_square 5 3 7).2.2.2.trans (by decide)⟩

/-- C9: `Container.get` from FIX 5 is unchecked — it yields an element
whenever `0 ≤ index < items.length`, but in the total embedding the
out-of-bounds branch (`none`) is reachable once that precondition is
dropped. -/
theorem c9_container_get_unchecked :
    (∀ (c : Container) (i : Int), 0 ≤ i → i.toNat < c.items.length →
      (Container.get c i).isSome = true) ∧
    (∃ (c : Container) (i : Int), Container.get c i = none) := by
  constructor
  · intro c i h0 hl
    simp [Container.get, vecIndex, h0, List.getElem?_eq_getElem hl]
  · exact ⟨⟨[]⟩, 0, rfl⟩

/-- Witness for C9 at a one-element container and index 0. -/
theorem c9_container_get_unchecked_witness :
    (Container.get ⟨[Item.mk]⟩ 0).isSome = true :=
  c9_container_get_unchecked.1 ⟨[Item.mk]⟩ 0 (by decide) (by decide)

/-- C10: `factorial` terminates on every `Int` argument (it is a total
function here, its recursion decreasing `n.toNat`), returns 1 for every
`n ≤ 1` — zero and negatives included — and `factorial 5 = 120` as the
`static_assert` checks. -/
theorem c10_factorial_total :
    (∀ n : Int, n ≤ 1 → factorial n = 1) ∧ factorial 5 = 120 := by
  constructor
  · intro n h
    rw [factorial]
    simp [h]
  · have h1 : factorial 1 = 1 := by rw [factorial]; norm_num
    have h2 : factorial 2 = 2 := by rw [factorial]; norm_num [h1]
    have h3 : factorial 3 = 6 := by rw [factorial]; norm_num [h2]
    have h4 : factorial 4 = 24 := by rw [factorial]; norm_num [h3]
    rw [factorial]; norm_num [h4]

/-- Witness for C10 at a negative argument. -/
theorem c10_factorial_total_witness : factorial (-3) = 1 :=
  c10_factorial_total.1 (-3) (by decide)
